import Mathlib

/-!
Shallow embedding of `src/fastmcp/tools/tool_manager.py`: a name-keyed tool
registry (`ToolManager`) with a duplicate-registration policy, lookup,
listing, invocation dispatch and import-with-prefix.

The Python dict `self._tools` is embedded as an insertion-ordered
association list with the key-update semantics of Python dicts (updating an
existing key keeps its position, a new key is appended).  Methods that
mutate the manager in place are embedded as functions returning the state
after the call together with the returned value (or the exception raised)
and the log entries emitted.  External collaborators (`Tool`, the run
arguments, the context, the MCP descriptor type) are opaque to the registry
and are embedded as plain data carrying abstract function fields.
-/

/-- Modelled from the spec: `fastmcp.settings.DuplicateBehavior`, the four
enumerated duplicate-registration policies `{Warn, Replace, Error, Ignore}`
(the enum's definition is outside the excerpt; only its four values are used
by `tool_manager.py`). -/
inductive DuplicateBehavior where
  | warn
  | replace
  | error
  | ignore
deriving DecidableEq

/-- Opaque argument payload handed to `call_tool`; the registry never
inspects it, only passes it through. -/
structure Args where
  raw : List (String × String)
deriving DecidableEq

/-- Opaque request context passed through `call_tool` unchanged. -/
structure Ctx where
  raw : String
deriving DecidableEq

/-- Opaque result produced by a tool's run operation. -/
structure RunResult where
  raw : String
deriving DecidableEq

/-- Python exceptions surfacing through the registry: `ToolError` (raised by
`call_tool` on an unknown name), `ValueError` (raised by `add_tool` under the
Error policy), and any other failure a tool's own run may raise. -/
inductive Exc where
  | toolError (msg : String)
  | valueError (msg : String)
  | other (msg : String)
deriving DecidableEq

/-- Opaque protocol-facing descriptor (`MCPTool`); produced by a tool's
`to_mcp_tool` rendering, never built by the registry itself. -/
structure MCPTool where
  mcpName : String
  payload : String
deriving DecidableEq

/-- The opaque `Tool` capability: a stable intrinsic name, an asynchronous
run operation (embedded as a function returning `Except`), and a descriptor
rendering `to_mcp_tool` taking the name to render under. -/
structure Tool where
  name : String
  run : Args → Option Ctx → Except Exc RunResult
  to_mcp_tool : String → MCPTool

/-- Log levels used by `tool_manager.py` (`logger.warning`, `logger.debug`). -/
inductive LogLevel where
  | warning
  | debug
deriving DecidableEq

/-- One emitted log entry. -/
structure LogEntry where
  level : LogLevel
  msg : String
deriving DecidableEq

/-- Python dict read: `d.get(k)`. -/
def dictGet (d : List (String × Tool)) (k : String) : Option Tool :=
  match d with
  | [] => none
  | (k', v) :: rest => if k' = k then some v else dictGet rest k

/-- Python dict write: `d[k] = v` — an existing key keeps its position, a
new key is appended (insertion order preserved). -/
def dictSet (d : List (String × Tool)) (k : String) (v : Tool) : List (String × Tool) :=
  match d with
  | [] => [(k, v)]
  | (k', v') :: rest => if k' = k then (k, v) :: rest else (k', v') :: dictSet rest k v

/-- `ToolManager`: the name→tool mapping and the duplicate policy fixed at
construction. -/
structure ToolManager where
  _tools : List (String × Tool)
  duplicate_behavior : DuplicateBehavior

/-- Python truthiness of `name or tool.name` for `name : str | None`:
`None` and the empty string are falsy and fall back to the tool's own name. -/
def pyOr (nameOpt : Option String) (fallback : String) : String :=
  match nameOpt with
  | none => fallback
  | some s => if s = "" then fallback else s

/-- `ToolManager.get_tool`: pure lookup by name. -/
def ToolManager.get_tool (m : ToolManager) (name : String) : Option Tool :=
  dictGet m._tools name

/-- `ToolManager.get_tools`: the whole mapping, keyed by registered name. -/
def ToolManager.get_tools (m : ToolManager) : List (String × Tool) :=
  m._tools

/-- `ToolManager.list_tools`: the registered tools in mapping order. -/
def ToolManager.list_tools (m : ToolManager) : List Tool :=
  m.get_tools.map Prod.snd

/-- `ToolManager.list_mcp_tools`: every registered tool rendered via
`tool.to_mcp_tool(name=name)` under its registered name (the mapping key). -/
def ToolManager.list_mcp_tools (m : ToolManager) : List MCPTool :=
  m._tools.map (fun p => p.2.to_mcp_tool p.1)

/-- Result of one `add_tool` call: the returned tool (or the exception
raised), the manager's state after the call, and the log entries emitted. -/
structure AddOutcome where
  ret : Except Exc Tool
  state : ToolManager
  logs : List LogEntry

/-- `ToolManager.add_tool`, line by line: `name = name or tool.name`;
`existing = self._tools.get(name)`; when an entry exists, branch on the
policy (Warn logs then stores, Replace stores, Error raises `ValueError`,
Ignore is `pass`); then the trailing `self._tools[name] = tool` runs
unconditionally on every non-raising path, and `tool` is returned. -/
def ToolManager.add_tool (m : ToolManager) (tool : Tool) (nameOpt : Option String) :
    AddOutcome :=
  let name := pyOr nameOpt tool.name
  match dictGet m._tools name with
  | some _ =>
      match m.duplicate_behavior with
      | .warn =>
          { ret := .ok tool,
            state := { m with _tools := dictSet (dictSet m._tools name tool) name tool },
            logs := [{ level := .warning, msg := "Tool already exists: " ++ name }] }
      | .replace =>
          { ret := .ok tool,
            state := { m with _tools := dictSet (dictSet m._tools name tool) name tool },
            logs := [] }
      | .error =>
          { ret := .error (.valueError ("Tool already exists: " ++ name)),
            state := m,
            logs := [] }
      | .ignore =>
          { ret := .ok tool,
            state := { m with _tools := dictSet m._tools name tool },
            logs := [] }
  | none =>
      { ret := .ok tool,
        state := { m with _tools := dictSet m._tools name tool },
        logs := [] }

/-- `ToolManager.call_tool`: look the name up; if absent raise
`ToolError(f"Unknown tool: {name}")`, else delegate to the tool's own run
with `arguments` and `context` passed through unchanged. -/
def ToolManager.call_tool (m : ToolManager) (name : String) (args : Args)
    (ctx : Option Ctx) : Except Exc RunResult :=
  match m.get_tool name with
  | none => .error (.toolError ("Unknown tool: " ++ name))
  | some tool => tool.run args ctx

/-- The effective name `import_tools` registers under:
`f"{prefix}{name}" if prefix else name` — the concatenation when the given
prefix is present and non-empty, else the name unchanged. -/
def effName (pre : Option String) (name : String) : String :=
  match pre with
  | none => name
  | some p => if p = "" then name else p ++ name

/-- Result of one `import_tools` call: unit or the exception that aborted
the loop, the importing manager's state after the call, and the logs. -/
structure ImportOutcome where
  ret : Except Exc Unit
  state : ToolManager
  logs : List LogEntry

/-- The `for name, tool in tool_manager._tools.items()` loop body of
`import_tools`: each pair is registered into the importing manager under its
effective name via `add_tool`; a raise from `add_tool` propagates and aborts
the remainder; a debug log entry follows each successful import. -/
def importLoop (m : ToolManager) (pre : Option String)
    (items : List (String × Tool)) : ImportOutcome :=
  match items with
  | [] => { ret := .ok (), state := m, logs := [] }
  | (name, tool) :: rest =>
      let a := m.add_tool tool (some (effName pre name))
      match a.ret with
      | .error e => { ret := .error e, state := a.state, logs := a.logs }
      | .ok _ =>
          let r := importLoop a.state pre rest
          { ret := r.ret,
            state := r.state,
            logs := a.logs
              ++ [{ level := .debug,
                    msg := "Imported tool \"" ++ tool.name ++ "\" as \""
                      ++ effName pre name ++ "\"" }]
              ++ r.logs }

/-- `ToolManager.import_tools`: run the import loop over the other manager's
mapping as it stands at call time. -/
def ToolManager.import_tools (m : ToolManager) (other : ToolManager)
    (pre : Option String) : ImportOutcome :=
  importLoop m pre other._tools

/-- Reading a key just written returns the new value. -/
theorem dictGet_dictSet_self (d : List (String × Tool)) (k : String) (v : Tool) :
    dictGet (dictSet d k v) k = some v := by
  induction d with
  | nil => simp [dictGet, dictSet]
  | cons p rest ih =>
      obtain ⟨k', v'⟩ := p
      by_cases h : k' = k
      · simp [dictGet, dictSet, h]
      · simp [dictGet, dictSet, h, ih]

/-- Writing one key leaves every other key's value unchanged. -/
theorem dictGet_dictSet_ne (d : List (String × Tool)) (k k' : String) (v : Tool)
    (h : k ≠ k') : dictGet (dictSet d k v) k' = dictGet d k' := by
  induction d with
  | nil => simp [dictGet, dictSet, h]
  | cons p rest ih =>
      obtain ⟨k₀, v₀⟩ := p
      by_cases h₀ : k₀ = k
      · subst h₀
        simp [dictGet, dictSet, h]
      · simp [dictGet, dictSet, h₀, ih]

/-- Writing the same key-value pair twice equals writing it once (the
Warn/Replace branches store and then the trailing store runs again). -/
theorem dictSet_idem (d : List (String × Tool)) (k : String) (v : Tool) :
    dictSet (dictSet d k v) k v = dictSet d k v := by
  induction d with
  | nil => simp [dictSet]
  | cons p rest ih =>
      obtain ⟨k', v'⟩ := p
      by_cases h : k' = k
      · simp [dictSet, h]
      · simp [dictSet, h, ih]

/-- On every non-raising path (any policy other than Error, or a fresh
name), `add_tool` returns the tool passed in, stores it under the effective
name, and leaves the policy unchanged. -/
theorem add_tool_state_tools (m : ToolManager) (t : Tool) (nopt : Option String)
    (h : m.duplicate_behavior ≠ .error ∨ dictGet m._tools (pyOr nopt t.name) = none) :
    (m.add_tool t nopt).ret = .ok t ∧
    (m.add_tool t nopt).state._tools = dictSet m._tools (pyOr nopt t.name) t ∧
    (m.add_tool t nopt).state.duplicate_behavior = m.duplicate_behavior := by
  cases hg : dictGet m._tools (pyOr nopt t.name) with
  | none => simp [ToolManager.add_tool, hg]
  | some u =>
      cases hb : m.duplicate_behavior with
      | warn => simp [ToolManager.add_tool, hg, hb, dictSet_idem]
      | replace => simp [ToolManager.add_tool, hg, hb, dictSet_idem]
      | ignore => simp [ToolManager.add_tool, hg, hb]
      | error =>
          rcases h with h | h
          · exact absurd hb h
          · rw [hg] at h; cases h

/-- Concrete tool fixture with intrinsic name `"t1"`. -/
def tool1 : Tool :=
  { name := "t1", run := fun _ _ => .ok { raw := "r1" },
    to_mcp_tool := fun n => { mcpName := n, payload := "d1" } }

/-- Concrete tool fixture with intrinsic name `"t2"`, whose run fails. -/
def tool2 : Tool :=
  { name := "t2", run := fun _ _ => .error (.other "boom"),
    to_mcp_tool := fun n => { mcpName := n, payload := "d2" } }

/-- Concrete tool fixture whose intrinsic name is the empty string. -/
def toolNoName : Tool :=
  { name := "", run := fun _ _ => .ok { raw := "r0" },
    to_mcp_tool := fun n => { mcpName := n, payload := "d0" } }

/-- Build a manager from a policy and a mapping. -/
def mgr (b : DuplicateBehavior) (ts : List (String × Tool)) : ToolManager :=
  { _tools := ts, duplicate_behavior := b }

theorem tool1_ne_tool2 : tool1 ≠ tool2 := by
  intro h
  have hn := congrArg Tool.name h
  simp [tool1, tool2] at hn

/-- `effName pre` is injective: either it is the identity, or it prepends a
fixed non-empty string. -/
theorem effName_injective (pre : Option String) : Function.Injective (effName pre) := by
  cases pre with
  | none => exact fun a b h => h
  | some p =>
      by_cases hp : p = ""
      · intro a b h
        simpa [effName, hp] using h
      · intro a b h
        simp only [effName, if_neg hp] at h
        have hd := congrArg String.data h
        simp only [String.data_append] at hd
        exact String.ext (List.append_cancel_left hd)

/-- When the import loop succeeds on every item (policy Warn or Replace),
the resulting mapping is the left fold of dict writes under effective
names, the loop reports success, and the policy is unchanged. -/
theorem importLoop_ok (items : List (String × Tool)) (m : ToolManager)
    (pre : Option String)
    (hp : m.duplicate_behavior = .warn ∨ m.duplicate_behavior = .replace)
    (hne : ∀ p ∈ items, effName pre p.1 ≠ "") :
    (importLoop m pre items).ret = .ok () ∧
    (importLoop m pre items).state._tools
      = items.foldl (fun d p => dictSet d (effName pre p.1) p.2) m._tools ∧
    (importLoop m pre items).state.duplicate_behavior = m.duplicate_behavior := by
  induction items generalizing m with
  | nil => simp [importLoop]
  | cons q rest ih =>
      obtain ⟨name, tool⟩ := q
      have hpol : m.duplicate_behavior ≠ .error := by
        rcases hp with h | h <;> simp [h]
      have hname : pyOr (some (effName pre name)) tool.name = effName pre name := by
        simp [pyOr, hne ⟨name, tool⟩ (List.mem_cons_self _ _)]
      have hadd := add_tool_state_tools m tool (some (effName pre name)) (Or.inl hpol)
      rw [hname] at hadd
      have hrest := ih (m.add_tool tool (some (effName pre name))).state
        (by rw [hadd.2.2]; exact hp)
        (fun q hq => hne q (List.mem_cons_of_mem _ hq))
      simp only [importLoop, hadd.1]
      refine ⟨hrest.1, ?_, by rw [hrest.2.2, hadd.2.2]⟩
      rw [hrest.2.1, hadd.2.1, List.foldl_cons]

/-- A key written by none of the folded items keeps its original value. -/
theorem dictGet_foldl_not_mem (items : List (String × Tool))
    (d : List (String × Tool)) (pre : Option String) (k : String)
    (hk : ∀ p ∈ items, effName pre p.1 ≠ k) :
    dictGet (items.foldl (fun d p => dictSet d (effName pre p.1) p.2) d) k
      = dictGet d k := by
  induction items generalizing d with
  | nil => rfl
  | cons q rest ih =>
      rw [List.foldl_cons, ih _ (fun p hp => hk p (List.mem_cons_of_mem _ hp)),
        dictGet_dictSet_ne _ _ _ _ (hk q (List.mem_cons_self _ _))]

/-- When the effective names of the items are pairwise distinct, folding the
writes maps each item's effective name to that item's tool. -/
theorem dictGet_foldl_mem (items : List (String × Tool))
    (d : List (String × Tool)) (pre : Option String) (x : String) (t : Tool)
    (hmem : (x, t) ∈ items)
    (hnd : (items.map (fun p => effName pre p.1)).Nodup) :
    dictGet (items.foldl (fun d p => dictSet d (effName pre p.1) p.2) d)
      (effName pre x) = some t := by
  induction items generalizing d with
  | nil => cases hmem
  | cons q rest ih =>
      rw [List.map_cons, List.nodup_cons] at hnd
      rw [List.foldl_cons]
      rcases List.mem_cons.mp hmem with heq | hmem'
      · subst heq
        have hnot : ∀ p ∈ rest, effName pre p.1 ≠ effName pre x := by
          intro p hp h
          exact hnd.1 (List.mem_map.2 ⟨p, hp, h⟩)
        rw [dictGet_foldl_not_mem rest _ pre _ hnot, dictGet_dictSet_self]
      · exact ih _ hmem' hnd.2

/-- C1: the spec states that under the Ignore policy a registration into an
occupied name leaves the mapping untouched (`getTool(N)` still returns T1).
In the code the Ignore branch is `pass` and the trailing unconditional
`self._tools[name] = tool` still runs, so the registration overwrites: at
the concrete input below (policy Ignore, `"n"` occupied by `tool1`,
registering `tool2` under `"n"`), the call returns `tool2` and the mapping
afterwards holds `tool2`, not `tool1`. -/
theorem ignore_policy_overwrites :
    ((mgr .ignore [("n", tool1)]).add_tool tool2 (some "n")).ret = .ok tool2 ∧
    ((mgr .ignore [("n", tool1)]).add_tool tool2 (some "n")).state.get_tool "n"
      = some tool2 ∧
    tool2 ≠ tool1 := by
  refine ⟨rfl, rfl, fun h => ?_⟩
  have hn := congrArg Tool.name h
  simp [tool1, tool2] at hn

/-- C2: under the Error policy, registering into an occupied name raises
`ValueError("Tool already exists: " + name)` (the spec's
`DuplicateNameError`) and leaves the registry state untouched, so the old
tool is still registered; conversely `add_tool` raises only when the policy
is Error and the effective name is occupied. -/
theorem error_policy_rejects (m : ToolManager) (t1 t2 : Tool) (n : String)
    (hp : m.duplicate_behavior = .error) (h1 : m.get_tool n = some t1)
    (hn : n ≠ "") :
    (m.add_tool t2 (some n)).ret
      = .error (.valueError ("Tool already exists: " ++ n)) ∧
    (m.add_tool t2 (some n)).state = m ∧
    (m.add_tool t2 (some n)).state.get_tool n = some t1 ∧
    ∀ (m' : ToolManager) (t : Tool) (nopt : Option String) (e : Exc),
      (m'.add_tool t nopt).ret = .error e →
      m'.duplicate_behavior = .error ∧ (m'.get_tool (pyOr nopt t.name)).isSome := by
  have hpy : pyOr (some n) t2.name = n := by simp [pyOr, hn]
  have h1' : dictGet m._tools n = some t1 := h1
  have hmain : (m.add_tool t2 (some n)).ret
        = .error (.valueError ("Tool already exists: " ++ n))
      ∧ (m.add_tool t2 (some n)).state = m := by
    simp [ToolManager.add_tool, hpy, h1', hp]
  refine ⟨hmain.1, hmain.2, by rw [hmain.2]; exact h1, ?_⟩
  intro m' t nopt e h
  cases hg : dictGet m'._tools (pyOr nopt t.name) with
  | none => simp [ToolManager.add_tool, hg] at h
  | some u =>
      cases hb : m'.duplicate_behavior with
      | warn => simp [ToolManager.add_tool, hg, hb] at h
      | replace => simp [ToolManager.add_tool, hg, hb] at h
      | ignore => simp [ToolManager.add_tool, hg, hb] at h
      | error => exact ⟨by simp [hb], by simp [ToolManager.get_tool, hg]⟩

theorem error_policy_rejects_witness :
    ((mgr .error [("n", tool1)]).add_tool tool2 (some "n")).ret
      = .error (.valueError ("Tool already exists: " ++ "n")) ∧
    ((mgr .error [("n", tool1)]).add_tool tool2 (some "n")).state.get_tool "n"
      = some tool1 :=
  ⟨(error_policy_rejects (mgr .error [("n", tool1)]) tool1 tool2 "n" rfl rfl
      (by decide)).1,
   (error_policy_rejects (mgr .error [("n", tool1)]) tool1 tool2 "n" rfl rfl
      (by decide)).2.2.1⟩

/-- C4: dispatching an unregistered name fails with
`ToolError("Unknown tool: " + name)` (the spec's `UnknownToolError`)
carrying the requested name; and when the name is registered, `call_tool`
merely delegates to the tool's own run, so the unknown-tool error is
produced by dispatch only in the absent case. -/
theorem call_tool_unknown_raises (m : ToolManager) (n : String) (args : Args)
    (ctx : Option Ctx) (h : m.get_tool n = none) :
    m.call_tool n args ctx = .error (.toolError ("Unknown tool: " ++ n)) ∧
    ∀ (m' : ToolManager) (n' : String) (a : Args) (c : Option Ctx) (t : Tool),
      m'.get_tool n' = some t → m'.call_tool n' a c = t.run a c := by
  refine ⟨by simp [ToolManager.call_tool, h], ?_⟩
  intro m' n' a c t ht
  simp [ToolManager.call_tool, ht]

theorem call_tool_unknown_raises_witness :
    (mgr .warn []).call_tool "missing" { raw := [] } none
      = .error (.toolError ("Unknown tool: " ++ "missing")) :=
  (call_tool_unknown_raises (mgr .warn []) "missing" { raw := [] } none rfl).1

/-- C5: dispatching a registered name delegates to that tool's run with the
arguments and context passed through unchanged, returns its result
verbatim, and propagates its failure unchanged (not wrapped).  In this pure
embedding the single application `t.run args ctx` is the one invocation the
code performs. -/
theorem call_tool_delegates (m : ToolManager) (n : String) (t : Tool)
    (args : Args) (ctx : Option Ctx) (h : m.get_tool n = some t) :
    m.call_tool n args ctx = t.run args ctx ∧
    (∀ r, t.run args ctx = .ok r → m.call_tool n args ctx = .ok r) ∧
    (∀ e, t.run args ctx = .error e → m.call_tool n args ctx = .error e) := by
  have hmain : m.call_tool n args ctx = t.run args ctx := by
    simp [ToolManager.call_tool, h]
  exact ⟨hmain, fun r hr => hmain.trans hr, fun e he => hmain.trans he⟩

theorem call_tool_delegates_witness :
    (mgr .replace [("n", tool2)]).call_tool "n" { raw := [] } none
      = .error (.other "boom") :=
  (call_tool_delegates (mgr .replace [("n", tool2)]) "n" tool2 { raw := [] }
      none rfl).2.2 (.other "boom") rfl

/-- C6: under the Warn and Replace policies, registering T1 then T2 under
the same (non-empty) name leaves the new tool registered — the new tool
always wins — both calls succeed without raising, and under Warn the second
call emits the duplicate warning. -/
theorem warn_replace_new_tool_wins (m : ToolManager) (t1 t2 : Tool) (n : String)
    (hp : m.duplicate_behavior = .warn ∨ m.duplicate_behavior = .replace)
    (hn : n ≠ "") :
    (m.add_tool t1 (some n)).ret = .ok t1 ∧
    ((m.add_tool t1 (some n)).state.add_tool t2 (some n)).ret = .ok t2 ∧
    ((m.add_tool t1 (some n)).state.add_tool t2 (some n)).state.get_tool n
      = some t2 ∧
    (m.duplicate_behavior = .warn →
      ((m.add_tool t1 (some n)).state.add_tool t2 (some n)).logs
        = [{ level := .warning, msg := "Tool already exists: " ++ n }]) := by
  have hpol : m.duplicate_behavior ≠ .error := by
    rcases hp with h | h <;> simp [h]
  have hpy1 : pyOr (some n) t1.name = n := by simp [pyOr, hn]
  have hpy2 : pyOr (some n) t2.name = n := by simp [pyOr, hn]
  have h1 := add_tool_state_tools m t1 (some n) (Or.inl hpol)
  rw [hpy1] at h1
  have hocc : dictGet (m.add_tool t1 (some n)).state._tools n = some t1 := by
    rw [h1.2.1]; exact dictGet_dictSet_self _ _ _
  have h2 := add_tool_state_tools (m.add_tool t1 (some n)).state t2 (some n)
    (Or.inl (by rw [h1.2.2]; exact hpol))
  rw [hpy2] at h2
  refine ⟨h1.1, h2.1, ?_, ?_⟩
  · show dictGet ((m.add_tool t1 (some n)).state.add_tool t2 (some n)).state._tools n
      = some t2
    rw [h2.2.1, dictGet_dictSet_self]
  · intro hw
    have hb2 : (m.add_tool t1 (some n)).state.duplicate_behavior = .warn := by
      rw [h1.2.2]; exact hw
    generalize hs : (m.add_tool t1 (some n)).state = s at hocc hb2 ⊢
    simp [ToolManager.add_tool, hpy2, hocc, hb2]

theorem warn_replace_new_tool_wins_witness :
    (((mgr .warn []).add_tool tool1 (some "sum")).state.add_tool tool2
        (some "sum")).state.get_tool "sum" = some tool2 ∧
    (((mgr .warn []).add_tool tool1 (some "sum")).state.add_tool tool2
        (some "sum")).logs
      = [{ level := .warning, msg := "Tool already exists: " ++ "sum" }] :=
  ⟨(warn_replace_new_tool_wins (mgr .warn []) tool1 tool2 "sum" (Or.inl rfl)
      (by decide)).2.2.1,
   (warn_replace_new_tool_wins (mgr .warn []) tool1 tool2 "sum" (Or.inl rfl)
      (by decide)).2.2.2 rfl⟩

/-- C7: registering a tool under a fresh (non-empty) override name inserts
it regardless of the duplicate policy, and the name then resolves to it. -/
theorem fresh_name_inserts (m : ToolManager) (t : Tool) (n : String)
    (hfresh : m.get_tool n = none) (hn : n ≠ "") :
    (m.add_tool t (some n)).ret = .ok t ∧
    (m.add_tool t (some n)).state.get_tool n = some t := by
  have hpy : pyOr (some n) t.name = n := by simp [pyOr, hn]
  have hadd := add_tool_state_tools m t (some n)
    (Or.inr (by rw [hpy]; exact hfresh))
  rw [hpy] at hadd
  refine ⟨hadd.1, ?_⟩
  show dictGet (m.add_tool t (some n)).state._tools n = some t
  rw [hadd.2.1, dictGet_dictSet_self]

theorem fresh_name_inserts_witness :
    ((mgr .error []).add_tool tool1 (some "n")).state.get_tool "n" = some tool1 :=
  (fresh_name_inserts (mgr .error []) tool1 "n" rfl (by decide)).2

/-- C8: `list_mcp_tools` renders every registered pair by asking the tool to
render itself under its registered name (the mapping key): its elements are
exactly the values `t.to_mcp_tool n` for registered pairs `(n, t)`, one per
entry. -/
theorem list_mcp_tools_registered_names (m : ToolManager) :
    (∀ d, d ∈ m.list_mcp_tools ↔ ∃ p ∈ m._tools, d = p.2.to_mcp_tool p.1) ∧
    m.list_mcp_tools.length = m._tools.length ∧
    ∀ n t, (n, t) ∈ m._tools → t.to_mcp_tool n ∈ m.list_mcp_tools := by
  refine ⟨fun d => ?_, by simp [ToolManager.list_mcp_tools], fun n t h => ?_⟩
  · simp only [ToolManager.list_mcp_tools, List.mem_map]
    constructor
    · rintro ⟨p, hp, rfl⟩
      exact ⟨p, hp, rfl⟩
    · rintro ⟨p, hp, rfl⟩
      exact ⟨p, hp, rfl⟩
  · exact List.mem_map.2 ⟨(n, t), h, rfl⟩

theorem list_mcp_tools_registered_names_witness :
    tool1.to_mcp_tool "ns/x" ∈ (mgr .warn [("ns/x", tool1)]).list_mcp_tools ∧
    tool1.name ≠ "ns/x" :=
  ⟨(list_mcp_tools_registered_names (mgr .warn [("ns/x", tool1)])).2.2 "ns/x"
      tool1 (List.mem_singleton.2 rfl),
   by decide⟩

/-- C9: whenever `add_tool` does not raise, the tool it returns is exactly
the tool that was passed in, never a previously stored one. -/
theorem add_tool_returns_argument (m : ToolManager) (t t' : Tool)
    (nopt : Option String) (h : (m.add_tool t nopt).ret = .ok t') : t' = t := by
  cases hg : dictGet m._tools (pyOr nopt t.name) with
  | none =>
      simp [ToolManager.add_tool, hg] at h
      exact h.symm
  | some u =>
      cases hb : m.duplicate_behavior with
      | warn =>
          simp [ToolManager.add_tool, hg, hb] at h
          exact h.symm
      | replace =>
          simp [ToolManager.add_tool, hg, hb] at h
          exact h.symm
      | ignore =>
          simp [ToolManager.add_tool, hg, hb] at h
          exact h.symm
      | error => simp [ToolManager.add_tool, hg, hb] at h

theorem add_tool_returns_argument_witness : tool2 = tool2 :=
  add_tool_returns_argument (mgr .ignore [("n", tool1)]) tool2 tool2
    (some "n") rfl

/-- C3: `import_tools` registers every pair held by the other manager at
call time into the importing manager, under the effective name
`prefix + name` (name unchanged when the prefix is absent or empty) and
under the importing manager's own duplicate policy.  When that policy lets
the new entry win (Warn or Replace), every imported name afterwards
resolves to the tool the other manager held at merge time; and the result
depends only on the other manager's mapping at call time, so the other
manager's own policy, and any later registration into it, cannot affect the
importer.  (The keys of a Python dict are pairwise distinct, and an
effective name must be usable as an override, i.e. non-empty.) -/
theorem import_tools_registers_prefixed (self other : ToolManager)
    (pre : Option String)
    (hp : self.duplicate_behavior = .warn ∨ self.duplicate_behavior = .replace)
    (hnd : (other._tools.map Prod.fst).Nodup)
    (hne : ∀ p ∈ other._tools, effName pre p.1 ≠ "") :
    (self.import_tools other pre).ret = .ok () ∧
    (∀ x t, (x, t) ∈ other._tools →
      (self.import_tools other pre).state.get_tool (effName pre x) = some t) ∧
    ∀ other' : ToolManager, other'._tools = other._tools →
      self.import_tools other' pre = self.import_tools other pre := by
  obtain ⟨hret, hstate, _⟩ := importLoop_ok other._tools self pre hp hne
  refine ⟨hret, ?_, ?_⟩
  · intro x t hmem
    have hmapnd : (other._tools.map (fun p => effName pre p.1)).Nodup := by
      have : (other._tools.map (fun p => effName pre p.1))
          = (other._tools.map Prod.fst).map (effName pre) := by
        simp [List.map_map, Function.comp]
      rw [this]
      exact hnd.map (effName_injective pre)
    show dictGet (self.import_tools other pre).state._tools (effName pre x) = some t
    rw [show (self.import_tools other pre).state = (importLoop self pre other._tools).state
        from rfl, hstate]
    exact dictGet_foldl_mem other._tools self._tools pre x t hmem hmapnd
  · intro o ho
    show importLoop self pre o._tools = importLoop self pre other._tools
    rw [ho]

theorem import_tools_registers_prefixed_witness :
    ((mgr .warn []).import_tools (mgr .error [("a", tool1)])
        (some "ns/")).state.get_tool (effName (some "ns/") "a") = some tool1 :=
  (import_tools_registers_prefixed (mgr .warn []) (mgr .error [("a", tool1)])
      (some "ns/") (Or.inl rfl) (by simp [mgr])
      (by intro p hp; simp [mgr] at hp; subst hp; decide)).2.1
    "a" tool1 (by simp [mgr])

/-- C10 counterexample: registering a tool whose own intrinsic name is the
empty string with the empty string as the override name stores it under the
empty-string key, so `get_tool ""` is occupied afterwards — refuting, as
universally stated, that the empty-string key is never used and
`getTool("")` remains absent. -/
theorem empty_override_empty_name_key_used :
    ((mgr .warn []).add_tool toolNoName (some "")).state.get_tool ""
      = some toolNoName ∧
    some toolNoName ≠ (none : Option Tool) :=
  ⟨rfl, by simp⟩

/-- C10 amended: registering with the empty string as the override name
behaves exactly like registering with no override — the tool is keyed under
its own intrinsic name — and provided that intrinsic name is non-empty, the
empty-string key is untouched, so `get_tool ""` is unchanged. -/
theorem empty_override_like_no_override (m : ToolManager) (t : Tool)
    (hne : t.name ≠ "") :
    m.add_tool t (some "") = m.add_tool t none ∧
    (m.add_tool t (some "")).state.get_tool "" = m.get_tool "" := by
  have hpy : pyOr (some "") t.name = t.name := by simp [pyOr]
  refine ⟨rfl, ?_⟩
  show dictGet (m.add_tool t (some "")).state._tools "" = dictGet m._tools ""
  cases hg : dictGet m._tools (pyOr (some "") t.name) with
  | none =>
      have h := add_tool_state_tools m t (some "") (Or.inr hg)
      rw [h.2.1, hpy, dictGet_dictSet_ne _ _ _ _ hne]
  | some u =>
      cases hb : m.duplicate_behavior with
      | error => simp [ToolManager.add_tool, hg, hb]
      | warn =>
          have h := add_tool_state_tools m t (some "") (Or.inl (by simp [hb]))
          rw [h.2.1, hpy, dictGet_dictSet_ne _ _ _ _ hne]
      | replace =>
          have h := add_tool_state_tools m t (some "") (Or.inl (by simp [hb]))
          rw [h.2.1, hpy, dictGet_dictSet_ne _ _ _ _ hne]
      | ignore =>
          have h := add_tool_state_tools m t (some "") (Or.inl (by simp [hb]))
          rw [h.2.1, hpy, dictGet_dictSet_ne _ _ _ _ hne]

theorem empty_override_like_no_override_witness :
    (mgr .warn []).add_tool tool1 (some "") = (mgr .warn []).add_tool tool1 none ∧
    ((mgr .warn []).add_tool tool1 (some "")).state.get_tool ""
      = (mgr .warn []).get_tool "" :=
  empty_override_like_no_override (mgr .warn []) tool1 (by decide)
